import Mathlib

/-!
# Shallow embedding of `torchdcemri` (AIF, tissue models, signal conversion)

This file embeds the three source modules of the `torchdcemri` package:

* `AIF.py` — the `InterpolatedAIF` class (internal state, `fit`, `sample` via
  `np.interp`, and the built-in population AIF table);
* `tissue_models.py` — the `patlak`, `tofts` and `extended_tofts` kinetic models;
* `DCE.py` — the `SPGR` spoiled-gradient-echo signal equation.

Numeric arrays are embedded as `List α` over a linearly ordered field (theorems
instantiate `α` at `ℚ` for decidable evaluation and at `ℝ` where the real
exponential matters).  Index accesses use `List.getD _ _ 0`, matching the
always-in-bounds tensor indexing of the source.  The in-place statement
`t -= t_onset` appearing in `patlak` and `tofts` is embedded by an explicit
definition of the final value of the caller's array (`patlak_tOut`,
`tofts_tOut`): the Python statement mutates the caller-visible tensor, and the
embedding exposes that final value so frame claims can be stated.  `fit`, which
in Python can in principle raise, is embedded in `Except` so the presence or
absence of an error path is part of the model.
-/

namespace TorchDCEMRI

set_option maxRecDepth 8000

/-- Error channel for operations the specification describes as fallible. -/
inductive DceError where
  | invalidInput
deriving DecidableEq

/-- Embeds `np.interp(x, xp, fp)`: piecewise-linear interpolation through the
points `(xp i, fp i)`, clamping to `fp.head` below `xp.head` and to the last
value of `fp` above the last of `xp`.  The first list argument is the query
abscissa, then the stored abscissas, then the stored ordinates, exactly the
argument order of `np.interp`.  (`np.interp` rejects mismatched or empty
arrays; those unreachable shapes are totalised with `0`.) -/
def npInterp {α : Type} [LinearOrderedField α] (x : α) : List α → List α → α
  | x0 :: x1 :: xs, f0 :: f1 :: fs =>
      if x ≤ x0 then f0
      else if x ≤ x1 then f0 + (f1 - f0) * (x - x0) / (x1 - x0)
      else npInterp x (x1 :: xs) (f1 :: fs)
  | [_], f0 :: _ => f0
  | _, _ => 0

/-- The state of the `InterpolatedAIF` class of `AIF.py`: the stored sample
values `self.AIF` and their timestamps `self.t`. -/
structure InterpolatedAIF (α : Type) where
  AIF : List α
  t : List α
deriving DecidableEq

/-- Embeds `InterpolatedAIF.fit`: the body is the two assignments
`self.AIF = AIF; self.t = t` and contains no validation and no `raise`, so the
embedding always produces `Except.ok` with both fields replaced together. -/
def InterpolatedAIF.fit {α : Type} (self : InterpolatedAIF α) (AIF : List α) (t : List α) :
    Except DceError (InterpolatedAIF α) :=
  Except.ok { AIF := AIF, t := t }

/-- Embeds `InterpolatedAIF.sample`: `np.interp(t, self.t, self.AIF)` applied
pointwise to the requested timestamps. -/
def InterpolatedAIF.sample {α : Type} [LinearOrderedField α]
    (self : InterpolatedAIF α) (ts : List α) : List α :=
  ts.map (fun x => npInterp x self.t self.AIF)

/-- The literal `AIF_pop` table of `_default_population_based_AIF` in `AIF.py`. -/
def AIF_pop : List ℚ := [
  0.0, 0.0908, 0.1787, 0.5667, 1.9445, 4.6015, 6.5225, 8.7509, 6.9091, 6.0901, 4.6583, 3.5056,
  2.8350, 2.3160, 1.9862, 1.8966, 1.8934, 2.0551, 2.1454, 2.1860, 2.1717, 2.1783, 2.0682,
  1.9374, 1.8774, 1.8100, 1.7271, 1.6808, 1.6205, 1.6182, 1.5581, 1.5831, 1.5469, 1.5513,
  1.5469, 1.5393, 1.5398, 1.5243, 1.5588, 1.5137, 1.4882, 1.5302, 1.4465, 1.4588, 1.4582,
  1.4741, 1.4251, 1.4850, 1.4249, 1.4075, 1.4414, 1.4190, 1.3938, 1.4047, 1.3961, 1.3857,
  1.3794, 1.3691, 1.3585, 1.3784, 1.3299, 1.3100, 1.3231, 1.3130, 1.3053, 1.3129, 1.2640,
  1.3032, 1.2721, 1.2649, 1.2426, 1.2345, 1.2416, 1.2340, 1.2172, 1.2128, 1.2374, 1.2213,
  1.2012, 1.1947, 1.1851, 1.1543, 1.1841, 1.1892, 1.1636, 1.1522, 1.2028, 1.1482, 1.1751,
  1.1605, 1.1531, 1.1628, 1.1232, 1.1255, 1.1227, 1.1362, 1.1002, 1.1486, 1.1178, 1.0933,
  1.1085, 1.0972, 1.0982, 1.0860, 1.1026, 1.0679, 1.0670, 1.0870, 1.0640, 1.0839, 1.0671,
  1.0452, 1.0639, 1.0490, 1.0358, 1.0360, 1.0378, 1.0258, 1.0371, 1.0287, 1.0300, 1.0171,
  1.0195, 1.0044, 1.0052, 1.0154, 1.0510, 1.0066, 1.0161, 0.9986, 0.9653, 0.9922, 0.9914,
  0.9749, 0.9934, 0.9621, 0.9733, 0.9894, 0.9900, 0.9754, 0.9240, 0.9347, 0.8556, 0.7921,
  0.7380, 0.6348]

/-- The timestamp grid of `_default_population_based_AIF`:
`np.arange(len(AIF_pop)) * 1.75` (seconds). -/
def default_t : List ℚ := (List.range AIF_pop.length).map (fun i : ℕ => (i : ℚ) * 1.75)

/-- Embeds `_default_population_based_AIF` and the no-argument branch of
`InterpolatedAIF.__init__`, which stores that pair as the initial state. -/
def default_population_based_AIF : InterpolatedAIF ℚ :=
  { AIF := AIF_pop, t := default_t }

/-- The `j`-th trapezoid of `torch.trapz`/`torch.cumulative_trapezoid` over
ordinates `y` and abscissas `x`: `(x[j+1] - x[j]) * (y[j] + y[j+1]) / 2`. -/
def trapzStep {α : Type} [LinearOrderedField α] (y x : List α) (j : ℕ) : α :=
  (x.getD (j + 1) 0 - x.getD j 0) * (y.getD j 0 + y.getD (j + 1) 0) / 2

/-- Embeds `torch.trapz(y, x)`: the sum of all consecutive trapezoids. -/
def trapz {α : Type} [LinearOrderedField α] (y x : List α) : α :=
  ((List.range (x.length - 1)).map (trapzStep y x)).sum

/-- The final value of the caller's time grid after `patlak`'s in-place
`t -= t_onset`: every entry is shifted by `t_onset`. -/
def patlak_tOut {α : Type} [LinearOrderedField α] (t : List α) (t_onset : α) : List α :=
  t.map (fun x => x - t_onset)

/-- `Cp` inside `patlak`: the AIF sampled at the shifted grid,
`AIF.sample(t - t_onset)`. -/
def patlak_Cp {α : Type} [LinearOrderedField α]
    (t : List α) (s : InterpolatedAIF α) (t_onset : α) : List α :=
  s.sample (patlak_tOut t t_onset)

/-- `Ct` inside `patlak` before the outer products:
`torch.cumulative_trapezoid(F.pad(Cp, (1, 0), value=0), F.pad(t, (1, 0), value=0))[n]`,
i.e. the cumulative trapezoidal sums of the zero-padded value and time lists. -/
def patlak_CumInt {α : Type} [LinearOrderedField α]
    (t : List α) (s : InterpolatedAIF α) (t_onset : α) (n : ℕ) : α :=
  ((List.range (n + 1)).map
    (trapzStep (0 :: patlak_Cp t s t_onset) (0 :: patlak_tOut t t_onset))).sum

/-- Entry `(n, m)` of `patlak`'s return value
`torch.outer(Cp, Vp) + torch.outer(Ct, Kt)`. -/
def patlak_entry {α : Type} [LinearOrderedField α]
    (t : List α) (s : InterpolatedAIF α) (Kt Vp : List α) (t_onset : α) (n m : ℕ) : α :=
  (patlak_Cp t s t_onset).getD n 0 * Vp.getD m 0 +
    patlak_CumInt t s t_onset n * Kt.getD m 0

/-- The final value of the caller's time grid after `tofts`'s in-place
`t -= t_onset` (also reached through `extended_tofts`, which delegates to
`tofts`). -/
def tofts_tOut {α : Type} [LinearOrderedField α] (t : List α) (t_onset : α) : List α :=
  t.map (fun x => x - t_onset)

/-- `Cp` inside `tofts`: the AIF sampled at the shifted grid. -/
def tofts_Cp {α : Type} [LinearOrderedField α]
    (t : List α) (s : InterpolatedAIF α) (t_onset : α) : List α :=
  s.sample (tofts_tOut t t_onset)

/-- The `Kep = None` branch of `tofts`: `Kep` starts as zeros and
`Kep[Ve != 0] = Kt[Ve != 0] / Ve[Ve != 0]`, i.e. elementwise
`if Ve[m] = 0 then 0 else Kt[m] / Ve[m]`. -/
def resolveKep {α : Type} [LinearOrderedField α] (Kt Ve : List α) : List α :=
  List.zipWith (fun kt ve => if ve = 0 then 0 else kt / ve) Kt Ve

/-- The effective `Kep` used by `tofts`: the supplied one when present,
otherwise `resolveKep`. -/
def tofts_Kep {α : Type} [LinearOrderedField α]
    (Kt Ve : List α) (KepOpt : Option (List α)) : List α :=
  KepOpt.getD (resolveKep Kt Ve)

/-- Entry `(k, m)` of the intermediate matrix `Ct` of `tofts`.  `Ct` is
initialised to zeros; the loop skips every `k` with `t[k] <= 0` (the shifted
grid), and otherwise sets
`Ct[k] = torch.trapz(Cp[:k+1] * torch.exp(-torch.outer(Kep, t[k] - t[:k+1])), t[:k+1])`.
The exponential of the source (`torch.exp`) enters through the parameter
`rexp`; theorems about the program instantiate it with `Real.exp`. -/
def tofts_Ct {α : Type} [LinearOrderedField α] (rexp : α → α)
    (t : List α) (s : InterpolatedAIF α) (Kt Ve : List α) (t_onset : α)
    (KepOpt : Option (List α)) (k m : ℕ) : α :=
  let tp := tofts_tOut t t_onset
  let Cp := tofts_Cp t s t_onset
  let Kep := tofts_Kep Kt Ve KepOpt
  if tp.getD k 0 ≤ 0 then 0
  else
    trapz
      ((List.range (k + 1)).map
        (fun j => Cp.getD j 0 * rexp (-(Kep.getD m 0 * (tp.getD k 0 - tp.getD j 0)))))
      (tp.take (k + 1))

/-- Entry `(k, m)` of the return value of `tofts`:
`Kt * Ct` when `extended=False`, and `torch.outer(Cp, Vp) + Kt * Ct` when
`extended=True` (`Kt * Ct` broadcasts `Kt` across each row of `Ct`). -/
def tofts_entry {α : Type} [LinearOrderedField α] (rexp : α → α)
    (t : List α) (s : InterpolatedAIF α) (Kt Ve Vp : List α) (t_onset : α)
    (KepOpt : Option (List α)) (extended : Bool) (k m : ℕ) : α :=
  Kt.getD m 0 * tofts_Ct rexp t s Kt Ve t_onset KepOpt k m +
    (if extended then (tofts_Cp t s t_onset).getD k 0 * Vp.getD m 0 else 0)

/-- Embeds `extended_tofts`, which is literally
`tofts(t, AIF, Kt, Ve, Vp, t_onset=t_onset, Kep=Kep, extended=True)`. -/
def extended_tofts_entry {α : Type} [LinearOrderedField α] (rexp : α → α)
    (t : List α) (s : InterpolatedAIF α) (Kt Ve Vp : List α) (t_onset : α)
    (KepOpt : Option (List α)) (k m : ℕ) : α :=
  tofts_entry rexp t s Kt Ve Vp t_onset KepOpt true k m

/-- Embeds `SPGR(R1, TR, FA, M0)` of `DCE.py`:
`exp = torch.exp(-R1 * TR); M0 * (((1 - exp) * np.sin(FA)) / (1 - np.cos(FA) * exp))`. -/
noncomputable def SPGR (R1 TR FA M0 : ℝ) : ℝ :=
  M0 * (((1 - Real.exp (-R1 * TR)) * Real.sin FA) / (1 - Real.cos FA * Real.exp (-R1 * TR)))

/-! ## Theorems -/

/-- C9: `SPGR(R1, TR, FA, M0)` with `R1 = 0` returns exactly 0 for every `TR`,
`FA` and `M0`, since the numerator factor `1 - exp(-R1*TR)` is 0. -/
theorem C9_SPGR_zero_at_R1_zero (TR FA M0 : ℝ) : SPGR 0 TR FA M0 = 0 := by
  simp [SPGR]

/-- C2 counterexample: `fit` called with samples `[1, 2]` and timestamps `[0]`
(mismatched lengths) does not produce an error, contradicting the claim that it
raises `InvalidInput` exactly on mismatched lengths or non-increasing
timestamps. -/
theorem C2_fit_raises_iff_cex :
    ¬ (((InterpolatedAIF.fit (⟨[], []⟩ : InterpolatedAIF ℚ) [1, 2] [0]).isOk = false) ↔
        ([(1 : ℚ), 2].length ≠ [(0 : ℚ)].length ∨ ¬ List.Chain' (· < ·) [(0 : ℚ)])) := by
  decide

/-- C2 amended: `fit` performs no validation at all: for every samples and
timestamps lists (matched or not, increasing or not) it returns normally,
replacing both internal arrays together in the same call. -/
theorem C2_fit_total {α : Type} (s : InterpolatedAIF α) (samples ts : List α) :
    InterpolatedAIF.fit s samples ts = Except.ok { AIF := samples, t := ts } ∧
      (InterpolatedAIF.fit s samples ts).isOk = true :=
  ⟨rfl, rfl⟩

/-- C3 counterexample: calling `patlak` with grid `[1]` and `t_onset = 1`
leaves the caller's grid equal to `[0]`, not `[1]`: the in-place
`t -= t_onset` mutates the caller-visible argument. -/
theorem C3_patlak_grid_unchanged_cex : patlak_tOut [(1 : ℚ)] 1 ≠ [(1 : ℚ)] := by
  norm_num [patlak_tOut]

/-- C3 amended: `patlak` mutates the caller's time grid in place: after the
call the grid has the same length and every entry equals its original value
minus `t_onset`. -/
theorem C3_patlak_grid_shifted {α : Type} [LinearOrderedField α]
    (t : List α) (t_onset : α) (k : ℕ) (h : k < t.length) :
    (patlak_tOut t t_onset).length = t.length ∧
      (patlak_tOut t t_onset).getD k 0 = t.getD k 0 - t_onset := by
  refine ⟨by simp [patlak_tOut], ?_⟩
  have h2 : k < (patlak_tOut t t_onset).length := by simpa [patlak_tOut] using h
  rw [List.getD_eq_getElem _ _ h2, List.getD_eq_getElem _ _ h]
  simp [patlak_tOut]

theorem C3_patlak_grid_shifted_witness :
    0 < [(5 : ℚ)].length ∧
      ((patlak_tOut [(5 : ℚ)] 2).length = [(5 : ℚ)].length ∧
        (patlak_tOut [(5 : ℚ)] 2).getD 0 0 = [(5 : ℚ)].getD 0 0 - 2) :=
  ⟨by decide, C3_patlak_grid_shifted [(5 : ℚ)] 2 0 (by decide)⟩

/-- C10: `tofts` (and hence `extended_tofts`, which delegates to it) mutates
the caller's time-grid argument in place: after the call the grid has the same
length and every entry equals its original value minus `t_onset`. -/
theorem C10_tofts_grid_shifted {α : Type} [LinearOrderedField α]
    (t : List α) (t_onset : α) (k : ℕ) (h : k < t.length) :
    (tofts_tOut t t_onset).length = t.length ∧
      (tofts_tOut t t_onset).getD k 0 = t.getD k 0 - t_onset := by
  refine ⟨by simp [tofts_tOut], ?_⟩
  have h2 : k < (tofts_tOut t t_onset).length := by simpa [tofts_tOut] using h
  rw [List.getD_eq_getElem _ _ h2, List.getD_eq_getElem _ _ h]
  simp [tofts_tOut]

theorem C10_tofts_grid_shifted_witness :
    1 < [(5 : ℚ), 7].length ∧
      ((tofts_tOut [(5 : ℚ), 7] 3).length = [(5 : ℚ), 7].length ∧
        (tofts_tOut [(5 : ℚ), 7] 3).getD 1 0 = [(5 : ℚ), 7].getD 1 0 - 3) :=
  ⟨by decide, C10_tofts_grid_shifted [(5 : ℚ), 7] 3 1 (by decide)⟩

/-- C6: every entry of `extended_tofts` equals the corresponding entry of
`tofts` with `extended=False` plus the outer product of the AIF sampled at
`t - t_onset` with `Vp`; and `extended_tofts` is exactly `tofts` with
`extended=True`. -/
theorem C6_extended_tofts_relation {α : Type} [LinearOrderedField α] (rexp : α → α)
    (t : List α) (s : InterpolatedAIF α) (Kt Ve Vp : List α) (t_onset : α)
    (KepOpt : Option (List α)) (k m : ℕ) :
    extended_tofts_entry rexp t s Kt Ve Vp t_onset KepOpt k m =
        tofts_entry rexp t s Kt Ve Vp t_onset KepOpt false k m +
          (s.sample (t.map (fun x => x - t_onset))).getD k 0 * Vp.getD m 0 ∧
      extended_tofts_entry rexp t s Kt Ve Vp t_onset KepOpt k m =
        tofts_entry rexp t s Kt Ve Vp t_onset KepOpt true k m := by
  refine ⟨?_, rfl⟩
  simp [extended_tofts_entry, tofts_entry, tofts_Cp, tofts_tOut, InterpolatedAIF.sample]

/-- C8: when `Kep` is not supplied, `tofts` resolves it elementwise as
`Kt[m] / Ve[m]` for voxels with `Ve[m] ≠ 0` and as `0` for voxels with
`Ve[m] = 0`; the division is only ever taken under the `Ve[m] ≠ 0` guard. -/
theorem C8_kep_resolution {α : Type} [LinearOrderedField α] (Kt Ve : List α) (m : ℕ)
    (hm : m < Kt.length) (hv : m < Ve.length) :
    (tofts_Kep Kt Ve none).getD m 0 =
      if Ve.getD m 0 = 0 then 0 else Kt.getD m 0 / Ve.getD m 0 := by
  have hz : m < (List.zipWith (fun kt ve => if ve = 0 then (0 : α) else kt / ve) Kt Ve).length := by
    rw [List.length_zipWith]
    omega
  show (resolveKep Kt Ve).getD m 0 = _
  rw [resolveKep, List.getD_eq_getElem _ _ hz, List.getElem_zipWith,
    List.getD_eq_getElem _ _ hm, List.getD_eq_getElem _ _ hv]

theorem C8_kep_resolution_witness :
    (1 < [(3 : ℚ), 1].length ∧ 1 < [(2 : ℚ), 0].length) ∧
      (tofts_Kep [(3 : ℚ), 1] [(2 : ℚ), 0] none).getD 1 0 =
        if [(2 : ℚ), 0].getD 1 0 = 0 then 0
        else [(3 : ℚ), 1].getD 1 0 / [(2 : ℚ), 0].getD 1 0 :=
  ⟨⟨by decide, by decide⟩, C8_kep_resolution [(3 : ℚ), 1] [(2 : ℚ), 0] 1 (by decide) (by decide)⟩

/-- C4 counterexample: with grid `[1]`, an AIF that is constantly `1` on
`[0, 2]`, and `t_onset = 0`, the first cumulative-integral value is
`1/2`, not `0`: the zero padding adds a trapezoid from the artificial point
`(0, 0)` to `(t'[0], Cp[0])`. -/
theorem C4_patlak_cumint_zero_cex :
    patlak_CumInt [(1 : ℚ)] ⟨[1, 1], [0, 2]⟩ 0 0 ≠ 0 := by
  norm_num [patlak_CumInt, patlak_Cp, patlak_tOut, InterpolatedAIF.sample, npInterp, trapzStep,
    List.range_succ]

/-- C4 amended: `CumInt` is the cumulative trapezoidal integral of the
zero-padded samples over the zero-padded shifted grid: its value at the first
grid point is `t'[0] * Cp[0] / 2` (zero only when that product vanishes, e.g.
when `t'[0] = 0`), it accumulates forward one trapezoid of the unpadded grid
at a time, and the output satisfies
`Ct[n, m] = Cp[n] * Vp[m] + CumInt[n] * Kt[m]` for every `n` and `m`. -/
theorem C4_patlak_formula {α : Type} [LinearOrderedField α]
    (t : List α) (s : InterpolatedAIF α) (Kt Vp : List α) (t_onset : α) (n m : ℕ) :
    patlak_CumInt t s t_onset 0 =
        (patlak_tOut t t_onset).getD 0 0 * (patlak_Cp t s t_onset).getD 0 0 / 2 ∧
      patlak_CumInt t s t_onset (n + 1) =
        patlak_CumInt t s t_onset n +
          ((patlak_tOut t t_onset).getD (n + 1) 0 - (patlak_tOut t t_onset).getD n 0) *
            ((patlak_Cp t s t_onset).getD n 0 + (patlak_Cp t s t_onset).getD (n + 1) 0) / 2 ∧
      patlak_entry t s Kt Vp t_onset n m =
        (patlak_Cp t s t_onset).getD n 0 * Vp.getD m 0 +
          patlak_CumInt t s t_onset n * Kt.getD m 0 := by
  refine ⟨?_, ?_, rfl⟩
  · simp only [patlak_CumInt, trapzStep, List.range_succ, List.range_zero, List.nil_append,
      List.map_cons, List.map_nil, List.sum_cons, List.sum_nil, List.getD_cons_zero,
      List.getD_cons_succ]
    ring
  · simp only [patlak_CumInt]
    rw [List.range_succ, List.map_append, List.sum_append]
    simp only [trapzStep, List.map_cons, List.map_nil, List.sum_cons, List.sum_nil,
      List.getD_cons_zero, List.getD_cons_succ]
    ring

/-- C5 counterexample: the built-in population AIF stores 146 samples, not
137. -/
theorem C5_default_aif_length_cex : default_population_based_AIF.AIF.length ≠ 137 := by
  decide

/-- C5 amended: default construction yields exactly 146 stored samples, whose
timestamps are `i * 1.75` seconds for `i = 0 .. 145` (strictly increasing,
uniform 1.75 s spacing) and whose first sample value is `0.0`. -/
theorem C5_default_aif (i : ℕ) (hi : i < 146) :
    default_population_based_AIF.AIF.length = 146 ∧
      default_population_based_AIF.t.length = 146 ∧
      default_population_based_AIF.t.getD i 0 = (i : ℚ) * 1.75 ∧
      List.Chain' (· < ·) default_population_based_AIF.t ∧
      default_population_based_AIF.AIF.getD 0 0 = 0 := by
  have hlenA : AIF_pop.length = 146 := by decide
  have hlenT : default_t.length = 146 := by
    rw [default_t, List.length_map, List.length_range, hlenA]
  refine ⟨hlenA, hlenT, ?_, ?_, ?_⟩
  · have hm : i < default_t.length := by rw [hlenT]; exact hi
    show default_t.getD i 0 = _
    rw [default_t] at hm ⊢
    rw [List.getD_eq_getElem _ _ hm, List.getElem_map, List.getElem_range]
  · show List.Chain' (· < ·) default_t
    have hp : (List.range AIF_pop.length).Pairwise (· < ·) := List.pairwise_lt_range _
    have hq : default_t.Pairwise (· < ·) := by
      rw [default_t]
      refine List.Pairwise.map _ ?_ hp
      intro a b hab
      have hc : (a : ℚ) < (b : ℚ) := by exact_mod_cast hab
      have : (0 : ℚ) < 1.75 := by norm_num
      exact mul_lt_mul_of_pos_right hc this
    exact hq.chain'
  · norm_num [default_population_based_AIF, AIF_pop]

theorem C5_default_aif_witness :
    3 < 146 ∧
      (default_population_based_AIF.AIF.length = 146 ∧
        default_population_based_AIF.t.length = 146 ∧
        default_population_based_AIF.t.getD 3 0 = (3 : ℚ) * 1.75 ∧
        List.Chain' (· < ·) default_population_based_AIF.t ∧
        default_population_based_AIF.AIF.getD 0 0 = 0) :=
  ⟨by decide, C5_default_aif 3 (by decide)⟩

/-- C1 counterexample: with an AIF that is constantly `1` on `[0, 1]`, grid
`[0]`, `t_onset = 0`, `Vp = [1]`, the shifted time `t'[0] = 0` is `≤ 0` and yet
the `extended_tofts` entry at `(0, 0)` equals `1`, not `0`: the vascular term
`outer(Cp, Vp)` is added on every row, and the clamped AIF sample at time 0
is `1` for this AIF. -/
theorem C1_tofts_causality_cex :
    (tofts_tOut [(0 : ℝ)] 0).getD 0 0 ≤ 0 ∧
      extended_tofts_entry Real.exp [(0 : ℝ)] ⟨[1, 1], [0, 1]⟩ [0] [1] [1] 0 none 0 0 ≠ 0 := by
  constructor
  · norm_num [tofts_tOut]
  · norm_num [extended_tofts_entry, tofts_entry, tofts_Ct, tofts_Cp, tofts_tOut,
      InterpolatedAIF.sample, npInterp]

/-- C1 amended: for every entry whose shifted time `t[k] - t_onset` is `≤ 0`,
`tofts` with `extended=False` yields exactly `0` for every voxel, while the
`extended=True` variant yields exactly the plasma term `Cp[k] * Vp[m]` there —
which is `0` whenever the sampled AIF value at the shifted time is `0` (as for
the default population AIF, whose clamped pre-onset sample is its first value
`0`), but not for a general AIF. -/
theorem C1_tofts_causality {α : Type} [LinearOrderedField α] (rexp : α → α)
    (t : List α) (s : InterpolatedAIF α) (Kt Ve Vp : List α) (t_onset : α)
    (KepOpt : Option (List α)) (k m : ℕ)
    (hk : (tofts_tOut t t_onset).getD k 0 ≤ 0) :
    tofts_entry rexp t s Kt Ve Vp t_onset KepOpt false k m = 0 ∧
      tofts_entry rexp t s Kt Ve Vp t_onset KepOpt true k m =
        (tofts_Cp t s t_onset).getD k 0 * Vp.getD m 0 := by
  have hCt : tofts_Ct rexp t s Kt Ve t_onset KepOpt k m = 0 := by
    simp only [tofts_Ct]
    rw [if_pos hk]
  constructor <;> simp [tofts_entry, hCt]

theorem C1_tofts_causality_witness :
    (tofts_tOut [(-1 : ℚ)] 0).getD 0 0 ≤ 0 ∧
      (tofts_entry id [(-1 : ℚ)] ⟨[0, 1], [0, 1]⟩ [1] [1] [1] 0 none false 0 0 = 0 ∧
        tofts_entry id [(-1 : ℚ)] ⟨[0, 1], [0, 1]⟩ [1] [1] [1] 0 none true 0 0 =
          (tofts_Cp [(-1 : ℚ)] ⟨[0, 1], [0, 1]⟩ 0).getD 0 0 * [(1 : ℚ)].getD 0 0) :=
  ⟨by norm_num [tofts_tOut],
    C1_tofts_causality id [(-1 : ℚ)] ⟨[0, 1], [0, 1]⟩ [1] [1] [1] 0 none 0 0
      (by norm_num [tofts_tOut])⟩

/-- Entries of a strictly increasing list are strictly increasing in the
index (stated with `getD`, for in-range indices). -/
theorem chain_getD_lt {α : Type} [LinearOrderedField α] :
    ∀ (l : List α), List.Chain' (· < ·) l → ∀ i j : ℕ, i < j → j < l.length →
      l.getD i 0 < l.getD j 0 := by
  intro l
  induction l with
  | nil => intro _ i j _ hj; simp at hj
  | cons a tl ih =>
    intro hc i j hij hj
    cases j with
    | zero => omega
    | succ j' =>
      have hjl : j' < tl.length := by simpa using hj
      have htl : List.Chain' (· < ·) tl := hc.tail
      cases i with
      | zero =>
        have hnil : tl ≠ [] := by
          intro h
          rw [h] at hjl
          simp at hjl
        obtain ⟨b, tl2, rfl⟩ := List.exists_cons_of_ne_nil hnil
        have hab : a < b := (List.chain'_cons.mp hc).1
        cases j' with
        | zero => simpa using hab
        | succ j2 =>
          have hbj : (b :: tl2).getD 0 0 < (b :: tl2).getD (j2 + 1) 0 :=
            ih htl 0 (j2 + 1) (Nat.succ_pos _) hjl
          simp only [List.getD_cons_zero] at hbj
          simpa using lt_trans hab hbj
      | succ i' =>
        have := ih htl i' j' (by omega) hjl
        simpa using this

/-- `np.interp` clamps below the first stored abscissa: for `x ≤ xp.head` the
result is `fp.head`. -/
theorem npInterp_below {α : Type} [LinearOrderedField α] (x : α) :
    ∀ (xs fs : List α), xs ≠ [] → fs.length = xs.length → x ≤ xs.getD 0 0 →
      npInterp x xs fs = fs.getD 0 0 := by
  intro xs fs hne hlen hx
  cases xs with
  | nil => exact absurd rfl hne
  | cons x0 xtl =>
    cases xtl with
    | nil =>
      cases fs with
      | nil => simp at hlen
      | cons f0 ftl =>
        cases ftl with
        | nil => simp [npInterp]
        | cons f1 ftl2 => simp at hlen
    | cons x1 xtl2 =>
      cases fs with
      | nil => simp at hlen
      | cons f0 ftl =>
        cases ftl with
        | nil => simp at hlen
        | cons f1 ftl2 =>
          simp only [List.getD_cons_zero] at hx ⊢
          simp only [npInterp]
          rw [if_pos hx]

/-- `np.interp` clamps above the last stored abscissa: for `x` beyond the last
point the result is the last ordinate. -/
theorem npInterp_above {α : Type} [LinearOrderedField α] (x : α) :
    ∀ (xs fs : List α), xs ≠ [] → fs.length = xs.length →
      List.Chain' (· < ·) xs → xs.getD (xs.length - 1) 0 < x →
      npInterp x xs fs = fs.getD (fs.length - 1) 0 := by
  intro xs
  induction xs with
  | nil => intro fs hne; exact absurd rfl hne
  | cons x0 xtl ih =>
    intro fs hne hlen hc hx
    cases xtl with
    | nil =>
      cases fs with
      | nil => simp at hlen
      | cons f0 ftl =>
        cases ftl with
        | nil => simp [npInterp]
        | cons f1 ftl2 => simp at hlen
    | cons x1 xtl2 =>
      cases fs with
      | nil => simp at hlen
      | cons f0 ftl =>
        cases ftl with
        | nil => simp at hlen
        | cons f1 ftl2 =>
          have hlen2 : (f1 :: ftl2).length = (x1 :: xtl2).length := by
            simpa using hlen
          have hc2 : List.Chain' (· < ·) (x1 :: xtl2) := hc.tail
          have h01 : x0 < x1 := (List.chain'_cons.mp hc).1
          have hxlast : (x1 :: xtl2).getD ((x1 :: xtl2).length - 1) 0 < x := by
            simpa [Nat.add_sub_cancel] using hx
          have hx1le : x1 ≤ (x1 :: xtl2).getD ((x1 :: xtl2).length - 1) 0 := by
            cases xtl2 with
            | nil => simp
            | cons x2 xtl3 =>
              have hlt := chain_getD_lt (x1 :: x2 :: xtl3) hc2 0
                ((x1 :: x2 :: xtl3).length - 1) (by simp) (by simp)
              simpa using hlt.le
          have hx1 : x1 < x := lt_of_le_of_lt hx1le hxlast
          have hx0 : x0 < x := lt_trans h01 hx1
          have hrec := ih (f1 :: ftl2) (List.cons_ne_nil _ _) hlen2 hc2 hxlast
          simp only [npInterp]
          rw [if_neg (not_le.mpr hx0), if_neg (not_le.mpr hx1), hrec]
          simp [Nat.add_sub_cancel]

/-- `np.interp` on a bracketed query: if `xp[i] ≤ x ≤ xp[i+1]` then the result
is the linear interpolation between the two bracketing stored points. -/
theorem npInterp_bracket {α : Type} [LinearOrderedField α] (x : α) :
    ∀ (i : ℕ) (xs fs : List α), fs.length = xs.length →
      List.Chain' (· < ·) xs → i + 1 < xs.length →
      xs.getD i 0 ≤ x → x ≤ xs.getD (i + 1) 0 →
      npInterp x xs fs =
        fs.getD i 0 + (fs.getD (i + 1) 0 - fs.getD i 0) * (x - xs.getD i 0) /
          (xs.getD (i + 1) 0 - xs.getD i 0) := by
  intro i
  induction i with
  | zero =>
    intro xs fs hlen hc hlt hxl hxr
    cases xs with
    | nil => simp at hlt
    | cons x0 xtl =>
      cases xtl with
      | nil => simp at hlt
      | cons x1 xtl2 =>
        cases fs with
        | nil => simp at hlen
        | cons f0 ftl =>
          cases ftl with
          | nil => simp at hlen
          | cons f1 ftl2 =>
            simp only [List.getD_cons_zero, List.getD_cons_succ] at hxl hxr ⊢
            by_cases hx0 : x ≤ x0
            · have hxx : x = x0 := le_antisymm hx0 hxl
              simp only [npInterp]
              rw [if_pos hx0, hxx]
              simp
            · simp only [npInterp]
              rw [if_neg hx0, if_pos hxr]
  | succ i' ih =>
    intro xs fs hlen hc hlt hxl hxr
    cases xs with
    | nil => simp at hlt
    | cons x0 xtl =>
      cases xtl with
      | nil => simp at hlt
      | cons x1 xtl2 =>
        cases fs with
        | nil => simp at hlen
        | cons f0 ftl =>
          cases ftl with
          | nil => simp at hlen
          | cons f1 ftl2 =>
            have hlen2 : (f1 :: ftl2).length = (x1 :: xtl2).length := by
              simpa using hlen
            have hc2 : List.Chain' (· < ·) (x1 :: xtl2) := hc.tail
            have h01 : x0 < x1 := (List.chain'_cons.mp hc).1
            simp only [List.getD_cons_succ] at hxl hxr ⊢
            have hlt2 : i' + 1 < (x1 :: xtl2).length := by
              simp only [List.length_cons] at hlt ⊢
              omega
            have hx1le : x1 ≤ (x1 :: xtl2).getD i' 0 := by
              cases i' with
              | zero => simp
              | succ i2 =>
                have hlt3 := chain_getD_lt (x1 :: xtl2) hc2 0 (i2 + 1)
                  (Nat.succ_pos _) (by omega)
                simp only [List.getD_cons_zero] at hlt3
                exact hlt3.le
            have hx0 : x0 < x := lt_of_lt_of_le h01 (le_trans hx1le hxl)
            simp only [npInterp]
            rw [if_neg (not_le.mpr hx0)]
            by_cases hx1 : x ≤ x1
            · have hxx : x = x1 := le_antisymm hx1 (le_trans hx1le hxl)
              cases i' with
              | succ i2 =>
                exfalso
                have hlt3 := chain_getD_lt (x1 :: xtl2) hc2 0 (i2 + 1)
                  (Nat.succ_pos _) (by omega)
                simp only [List.getD_cons_zero] at hlt3
                have hxgt : x1 < x := lt_of_lt_of_le hlt3 hxl
                exact lt_irrefl x1 (hxx ▸ hxgt)
              | zero =>
                rw [if_pos hx1]
                simp only [List.getD_cons_zero, List.getD_cons_succ]
                have hd : x1 - x0 ≠ 0 := sub_ne_zero.mpr (ne_of_gt h01)
                rw [hxx, sub_self, mul_zero, zero_div, add_zero,
                  mul_div_assoc, div_self hd, mul_one]
                ring
            · rw [if_neg hx1]
              exact ih (x1 :: xtl2) (f1 :: ftl2) hlen2 hc2 hlt2 hxl hxr

/-- C7: for every fitted AIF with strictly increasing timestamps, `sample`
returns the piecewise-linear interpolation between the bracketing stored
points; every query below `timestamps[0]` returns `samples[0]`, and every
query above the last timestamp returns the last sample (clamping, not linear
extension). -/
theorem C7_sample_contract {α : Type} [LinearOrderedField α]
    (s : InterpolatedAIF α) (x : α) (i : ℕ)
    (hne : s.t ≠ []) (hlen : s.AIF.length = s.t.length)
    (hinc : List.Chain' (· < ·) s.t) :
    (x < s.t.getD 0 0 → s.sample [x] = [s.AIF.getD 0 0]) ∧
      (s.t.getD (s.t.length - 1) 0 < x →
        s.sample [x] = [s.AIF.getD (s.AIF.length - 1) 0]) ∧
      (i + 1 < s.t.length → s.t.getD i 0 ≤ x → x ≤ s.t.getD (i + 1) 0 →
        s.sample [x] = [s.AIF.getD i 0 +
          (s.AIF.getD (i + 1) 0 - s.AIF.getD i 0) * (x - s.t.getD i 0) /
            (s.t.getD (i + 1) 0 - s.t.getD i 0)]) := by
  refine ⟨?_, ?_, ?_⟩
  · intro h
    simp only [InterpolatedAIF.sample, List.map_cons, List.map_nil]
    rw [npInterp_below x s.t s.AIF hne hlen h.le]
  · intro h
    simp only [InterpolatedAIF.sample, List.map_cons, List.map_nil]
    rw [npInterp_above x s.t s.AIF hne hlen hinc h]
  · intro hlt hxl hxr
    simp only [InterpolatedAIF.sample, List.map_cons, List.map_nil]
    rw [npInterp_bracket x i s.t s.AIF hlen hinc hlt hxl hxr]

theorem C7_sample_contract_witness :
    (([(0 : ℚ), 4] : List ℚ) ≠ [] ∧ [(10 : ℚ), 20].length = [(0 : ℚ), 4].length ∧
        List.Chain' (· < ·) [(0 : ℚ), 4]) ∧
      ((1 < [(0 : ℚ), 4].getD 0 0 →
          InterpolatedAIF.sample ⟨[10, 20], [0, 4]⟩ [1] = [[(10 : ℚ), 20].getD 0 0]) ∧
        ([(0 : ℚ), 4].getD ([(0 : ℚ), 4].length - 1) 0 < 1 →
          InterpolatedAIF.sample ⟨[10, 20], [0, 4]⟩ [1] =
            [[(10 : ℚ), 20].getD ([(10 : ℚ), 20].length - 1) 0]) ∧
        (0 + 1 < [(0 : ℚ), 4].length → [(0 : ℚ), 4].getD 0 0 ≤ 1 →
          1 ≤ [(0 : ℚ), 4].getD (0 + 1) 0 →
          InterpolatedAIF.sample ⟨[10, 20], [0, 4]⟩ [1] =
            [[(10 : ℚ), 20].getD 0 0 +
              ([(10 : ℚ), 20].getD (0 + 1) 0 - [(10 : ℚ), 20].getD 0 0) *
                (1 - [(0 : ℚ), 4].getD 0 0) /
                ([(0 : ℚ), 4].getD (0 + 1) 0 - [(0 : ℚ), 4].getD 0 0)])) :=
  ⟨⟨List.cons_ne_nil _ _, rfl, by norm_num [List.chain'_cons]⟩,
    C7_sample_contract ⟨[10, 20], [0, 4]⟩ 1 0 (List.cons_ne_nil _ _) rfl
      (by norm_num [List.chain'_cons])⟩

theorem C9_SPGR_zero_at_R1_zero_witness : SPGR 0 1 2 3 = 0 :=
  C9_SPGR_zero_at_R1_zero 1 2 3

theorem C2_fit_total_witness :
    InterpolatedAIF.fit (⟨[], []⟩ : InterpolatedAIF ℚ) [1, 2] [0] =
        Except.ok { AIF := [1, 2], t := [0] } ∧
      (InterpolatedAIF.fit (⟨[], []⟩ : InterpolatedAIF ℚ) [1, 2] [0]).isOk = true :=
  C2_fit_total (⟨[], []⟩ : InterpolatedAIF ℚ) [1, 2] [0]

theorem C4_patlak_formula_witness :
    patlak_CumInt [(1 : ℚ), 2] ⟨[1, 1], [0, 2]⟩ 0 0 =
        (patlak_tOut [(1 : ℚ), 2] 0).getD 0 0 *
          (patlak_Cp [(1 : ℚ), 2] ⟨[1, 1], [0, 2]⟩ 0).getD 0 0 / 2 ∧
      patlak_CumInt [(1 : ℚ), 2] ⟨[1, 1], [0, 2]⟩ 0 (0 + 1) =
        patlak_CumInt [(1 : ℚ), 2] ⟨[1, 1], [0, 2]⟩ 0 0 +
          ((patlak_tOut [(1 : ℚ), 2] 0).getD (0 + 1) 0 -
              (patlak_tOut [(1 : ℚ), 2] 0).getD 0 0) *
            ((patlak_Cp [(1 : ℚ), 2] ⟨[1, 1], [0, 2]⟩ 0).getD 0 0 +
              (patlak_Cp [(1 : ℚ), 2] ⟨[1, 1], [0, 2]⟩ 0).getD (0 + 1) 0) / 2 ∧
      patlak_entry [(1 : ℚ), 2] ⟨[1, 1], [0, 2]⟩ [3] [5] 0 0 0 =
        (patlak_Cp [(1 : ℚ), 2] ⟨[1, 1], [0, 2]⟩ 0).getD 0 0 * [(5 : ℚ)].getD 0 0 +
          patlak_CumInt [(1 : ℚ), 2] ⟨[1, 1], [0, 2]⟩ 0 0 * [(3 : ℚ)].getD 0 0 :=
  C4_patlak_formula [(1 : ℚ), 2] ⟨[1, 1], [0, 2]⟩ [3] [5] 0 0 0

theorem C6_extended_tofts_relation_witness :
    extended_tofts_entry id [(1 : ℚ), 2] ⟨[1, 1], [0, 2]⟩ [3] [4] [5] 0 none 0 0 =
        tofts_entry id [(1 : ℚ), 2] ⟨[1, 1], [0, 2]⟩ [3] [4] [5] 0 none false 0 0 +
          (InterpolatedAIF.sample ⟨[1, 1], [0, 2]⟩
              ([(1 : ℚ), 2].map (fun x => x - 0))).getD 0 0 * [(5 : ℚ)].getD 0 0 ∧
      extended_tofts_entry id [(1 : ℚ), 2] ⟨[1, 1], [0, 2]⟩ [3] [4] [5] 0 none 0 0 =
        tofts_entry id [(1 : ℚ), 2] ⟨[1, 1], [0, 2]⟩ [3] [4] [5] 0 none true 0 0 :=
  C6_extended_tofts_relation id [(1 : ℚ), 2] ⟨[1, 1], [0, 2]⟩ [3] [4] [5] 0 none 0 0

end TorchDCEMRI
